import Mathlib

/-!
Verification development for the url-crawler task queue / worker pool.

The Go source is shallowly embedded:
- the in-memory queue channel becomes a list bounded by the configured
  buffer size (a non-blocking send succeeds iff the length is below it);
- the mutex-guarded activeTasks map and the crawl_results table become
  association lists keyed by the string id;
- fallible storage calls take explicit Boolean failure oracles;
- timestamps are abstract Nat values supplied by the caller.
-/

/-- Status of a crawl, from models (CrawlStatus constants). -/
inductive CrawlStatus
  | queued
  | running
  | completed
  | error
deriving DecidableEq

/-- Slimmed CrawlResult row: identity, payload, status bookkeeping. The
analysis content columns are represented by the single `title` field. -/
structure CrawlResult where
  id : String
  url : String
  title : Option String
  status : CrawlStatus
  errorMessage : Option String
  createdAt : Nat
  updatedAt : Nat
deriving DecidableEq

/-- CrawlTask from services/queue.go. -/
structure CrawlTask where
  ID : String
  URL : String
  CreatedAt : Nat
  Status : CrawlStatus
deriving DecidableEq

/- String helpers mirroring the Go strings package operations used by
ValidateURL (HasPrefix, ToLower, Contains), over the character list. -/

/-- Go strings.HasPrefix on character lists. -/
def listStartsWith : List Char → List Char → Bool
  | [], _ => true
  | _ :: _, [] => false
  | p :: ps, c :: cs => (p == c) && listStartsWith ps cs

/-- Go strings.Contains on character lists: pat occurs contiguously in l. -/
def listContainsSeq (pat : List Char) : List Char → Bool
  | [] => pat.isEmpty
  | c :: rest => listStartsWith pat (c :: rest) || listContainsSeq pat rest

/-- Go strings.HasPrefix. -/
def strStartsWith (p s : String) : Bool := listStartsWith p.data s.data

/-- Go strings.Contains: s contains pat. -/
def strContainsStr (s pat : String) : Bool := listContainsSeq pat.data s.data

/-- Go strings.ToLower (ASCII case folding suffices for the URL patterns). -/
def strToLower (s : String) : String := ⟨s.data.map Char.toLower⟩

/-- The disallowed patterns from FirecrawlService.ValidateURL. -/
def maliciousPatterns : List String := ["javascript:", "data:", "file:", "ftp:"]

/-- FirecrawlService.ValidateURL: none = accepted (nil error), some msg =
rejected with that error message. -/
def ValidateURL (targetURL : String) : Option String :=
  if targetURL = "" then
    some "URL cannot be empty"
  else if !(strStartsWith "http://" targetURL || strStartsWith "https://" targetURL) then
    some "URL must start with http:// or https://"
  else
    let lowerURL := strToLower targetURL
    if maliciousPatterns.any (fun pattern => strContainsStr lowerURL pattern) then
      some "potentially malicious URL pattern detected"
    else
      none

/-- The rejection classes exactly as the spec sentence states them: empty
input, missing required scheme, or a disallowed scheme PREFIX
(case-insensitively). Written from the spec's words, to be compared with
ValidateURL, which is written from the source. -/
def specRejects (t : String) : Bool :=
  (t == "") ||
  !(strStartsWith "http://" t || strStartsWith "https://" t) ||
  maliciousPatterns.any (fun pattern => strStartsWith pattern (strToLower t))

/-- The amended rejection classes: the disallowed patterns are rejected when
they occur case-insensitively as a substring ANYWHERE in the target, not only
as a prefix. -/
def amendedRejects (t : String) : Bool :=
  (t == "") ||
  !(strStartsWith "http://" t || strStartsWith "https://" t) ||
  maliciousPatterns.any (fun pattern => strContainsStr (strToLower t) pattern)

/- Association lists model both the mutex-guarded activeTasks map and the
crawl_results table (keyed by the id column). -/

/-- Lookup by key; first match wins (keys are kept unique by construction). -/
def alookup {α : Type} : List (String × α) → String → Option α
  | [], _ => none
  | p :: rest, k => if p.1 = k then some p.2 else alookup rest k

/-- Rewrite the value at a key in place; a no-op when the key is absent
(matching a SQL UPDATE that affects zero rows). -/
def aupdate {α : Type} (m : List (String × α)) (k : String) (f : α → α) :
    List (String × α) :=
  m.map (fun p => if p.1 = k then (p.1, f p.2) else p)

/-- Remove every entry with the key (Go map delete). -/
def aremove {α : Type} (m : List (String × α)) (k : String) : List (String × α) :=
  m.filter (fun p => !(p.1 == k))

/-- The persisted crawl_results table. -/
abbrev Storage := List (String × CrawlResult)

/-- The column set rewritten by SaveCrawlResult's ON DUPLICATE KEY UPDATE
clause: content, status, error_message, updated_at — id, url and created_at
of the existing row are retained. -/
def upsertRow (old r : CrawlResult) : CrawlResult :=
  { old with title := r.title, status := r.status,
             errorMessage := r.errorMessage, updatedAt := r.updatedAt }

/-- CrawlStorage.SaveCrawlResult: insert-or-update keyed by the id. -/
def SaveCrawlResult (s : Storage) (r : CrawlResult) : Storage :=
  if (alookup s r.id).isSome then aupdate s r.id (fun old => upsertRow old r)
  else (r.id, r) :: s

/-- CrawlStorage.UpdateCrawlStatus: rewrite status, error_message and
updated_at of the row with the given id. -/
def UpdateCrawlStatus (s : Storage) (id : String) (status : CrawlStatus)
    (errorMsg : Option String) (now : Nat) : Storage :=
  aupdate s id (fun old =>
    { old with status := status, errorMessage := errorMsg, updatedAt := now })

/-- Storage read failures: a missing row is distinguishable from any other
storage failure (sql.ErrNoRows is mapped to a dedicated error). -/
inductive StorageError
  | notFound
  | other (msg : String)
deriving DecidableEq

/-- CrawlStorage.GetCrawlResult: fetch by id, distinguishable not-found. -/
def GetCrawlResult (s : Storage) (id : String) : Except StorageError CrawlResult :=
  match alookup s id with
  | some r => Except.ok r
  | none => Except.error StorageError.notFound

/-- Errors EnqueueURL / RequeueTask return to the caller, kept as
distinguishable constructors (the Go code wraps distinct messages). -/
inductive QueueError
  | invalidURL (msg : String)
  | saveFailed
  | getFailed (e : StorageError)
  | updateFailed
  | queueFull
deriving DecidableEq

/-- QueueService state: the buffered channel is a list bounded by
bufferSize, activeTasks the in-flight map, storage the persisted table;
ctxCancelled / queueClosed record the cancellation signal and channel
closure issued by Stop. -/
structure QueueService where
  queue : List CrawlTask
  workers : Nat
  bufferSize : Nat
  maxRetries : Nat
  retryDelay : Nat
  running : Bool
  ctxCancelled : Bool
  queueClosed : Bool
  activeTasks : List (String × CrawlTask)
  storage : Storage
deriving DecidableEq

/-- Go map assignment activeTasks[id] = task: insert or replace. -/
def tasksInsert (m : List (String × CrawlTask)) (t : CrawlTask) :
    List (String × CrawlTask) :=
  if (alookup m t.ID).isSome then aupdate m t.ID (fun _ => t) else (t.ID, t) :: m

/-- QueueService.Start: no-op when already running (0 new workers),
otherwise mark running and spawn exactly `workers` loops (the count of
spawned loops is returned alongside the new state). -/
def QueueService.Start (q : QueueService) : QueueService × Nat :=
  if q.running then (q, 0)
  else ({ q with running := true }, q.workers)

/-- QueueService.Stop: no-op when not running; otherwise flip the flag,
cancel the context and close the admission channel. -/
def QueueService.Stop (q : QueueService) : QueueService :=
  if q.running then
    { q with running := false, ctxCancelled := true, queueClosed := true }
  else q

/-- QueueService.GetActiveTask: read-only lookup in the in-flight map,
returning the Go (task, exists) pair. -/
def QueueService.GetActiveTask (q : QueueService) (id : String) :
    Option CrawlTask × Bool :=
  match alookup q.activeTasks id with
  | some t => (some t, true)
  | none => (none, false)

/-- QueueService.EnqueueURL. `newId` stands for uuid.New().String(), `now`
for time.Now(); `saveFails` / `updateFails` are the failure oracles of the
two storage calls (a failed call leaves storage unchanged). Mirrors the
source order: validate, build + save the queued record, insert into
activeTasks, then the non-blocking send (which succeeds iff the buffer has
capacity); on the full branch the in-flight entry is deleted, the record is
marked error "Queue is full" with the update's own error discarded, and the
caller gets the queue-full error. -/
def QueueService.EnqueueURL (q : QueueService) (url : String) (newId : String)
    (now : Nat) (saveFails updateFails : Bool) :
    QueueService × Except QueueError CrawlResult :=
  match ValidateURL url with
  | some msg => (q, Except.error (QueueError.invalidURL msg))
  | none =>
    let result : CrawlResult :=
      { id := newId, url := url, title := none, status := CrawlStatus.queued,
        errorMessage := none, createdAt := now, updatedAt := now }
    if saveFails then (q, Except.error QueueError.saveFailed)
    else
      let q1 := { q with storage := SaveCrawlResult q.storage result }
      let task : CrawlTask :=
        { ID := result.id, URL := url, CreatedAt := now, Status := CrawlStatus.queued }
      let q2 := { q1 with activeTasks := tasksInsert q1.activeTasks task }
      if q2.queue.length < q2.bufferSize then
        ({ q2 with queue := q2.queue ++ [task] }, Except.ok result)
      else
        let q3 := { q2 with activeTasks := aremove q2.activeTasks task.ID }
        let st4 := UpdateCrawlStatus q3.storage result.id CrawlStatus.error (some "Queue is full") now
        let q4 := if updateFails then q3 else { q3 with storage := st4 }
        (q4, Except.error QueueError.queueFull)

/-- Failure oracles for the storage calls made while processing one task:
the status-to-running update, the final save, and the status-to-error
update (at most one of the latter two error updates runs per task). -/
structure TaskOracle where
  updateRunningFails : Bool
  saveFails : Bool
  updateErrFails : Bool
deriving DecidableEq

/-- The storage effect of QueueService.processTask, in source order: mark
running (failure logged, not fatal), then either record the engine error,
or save the completed result — rekeyed to the task id, status forced to
completed, updated_at refreshed — falling back to an error status with
message "Failed to save crawl result" when that save fails (that update's
own error is discarded). -/
def processTaskStorage (st : Storage) (tid : String)
    (engine : Except String CrawlResult) (o : TaskOracle) (now : Nat) : Storage :=
  let st1 :=
    if o.updateRunningFails then st
    else UpdateCrawlStatus st tid CrawlStatus.running none now
  match engine with
  | Except.error e =>
    if o.updateErrFails then st1
    else UpdateCrawlStatus st1 tid CrawlStatus.error (some e) now
  | Except.ok r =>
    let r2 := { r with id := tid, status := CrawlStatus.completed, updatedAt := now }
    if o.saveFails then
      if o.updateErrFails then st1
      else UpdateCrawlStatus st1 tid CrawlStatus.error
        (some "Failed to save crawl result") now
    else SaveCrawlResult st1 r2

/-- QueueService.processTask. `engine` is the outcome of the single
crawler.AnalyzeURL call. On the in-flight map the net effect is: the shared
task pointer's status is set to running, and as the final step the entry is
deleted (exactly once, in every branch). -/
def QueueService.processTask (q : QueueService) (task : CrawlTask)
    (engine : Except String CrawlResult) (o : TaskOracle) (now : Nat) :
    QueueService :=
  { q with
    storage := processTaskStorage q.storage task.ID engine o now,
    activeTasks :=
      aremove (aupdate q.activeTasks task.ID
        (fun t => { t with Status := CrawlStatus.running })) task.ID }

/-- QueueService.RequeueTask, in source order: fetch the persisted record
(failing distinctly when absent), build a fresh task with the same id and
stored URL, mark the record queued (failure aborts), insert into
activeTasks, then the same non-blocking send / reject-on-full admission as
EnqueueURL. -/
def QueueService.RequeueTask (q : QueueService) (id : String) (now : Nat)
    (updateFails updateFullFails : Bool) : QueueService × Option QueueError :=
  match GetCrawlResult q.storage id with
  | Except.error e => (q, some (QueueError.getFailed e))
  | Except.ok result =>
    let task : CrawlTask :=
      { ID := id, URL := result.url, CreatedAt := now, Status := CrawlStatus.queued }
    if updateFails then (q, some QueueError.updateFailed)
    else
      let st1 := UpdateCrawlStatus q.storage id CrawlStatus.queued none now
      let q1 := { q with storage := st1 }
      let q2 := { q1 with activeTasks := tasksInsert q1.activeTasks task }
      if q2.queue.length < q2.bufferSize then
        ({ q2 with queue := q2.queue ++ [task] }, none)
      else
        let q3 := { q2 with activeTasks := aremove q2.activeTasks task.ID }
        let st4 := UpdateCrawlStatus q3.storage id CrawlStatus.error (some "Queue is full") now
        let q4 := if updateFullFails then q3 else { q3 with storage := st4 }
        (q4, some QueueError.queueFull)

/-- One worker loop's view of shutdown: the buffered channel contents, the
closed flag set by Stop, the cancellation signal from ctx.Done(), the tasks
this worker has pulled and processed, and whether the loop has returned. -/
structure WorkerState where
  buf : List CrawlTask
  chanClosed : Bool
  ctxCancelled : Bool
  processed : List CrawlTask
  exited : Bool
deriving DecidableEq

/-- Small-step semantics of the worker's select loop, with Go semantics:
a receive on the channel yields a buffered task whenever one remains (even
after close); a receive reports closure only when the buffer is empty and
the channel is closed; and whenever the context is cancelled, the select
may instead take the ctx.Done() branch and exit immediately — Go's select
chooses among ready cases nondeterministically. -/
inductive WorkerStep : WorkerState → WorkerState → Prop
  | recvTask (s : WorkerState) (t : CrawlTask) (rest : List CrawlTask) :
      s.exited = false → s.buf = t :: rest →
      WorkerStep s { s with buf := rest, processed := s.processed ++ [t] }
  | recvClosed (s : WorkerState) :
      s.exited = false → s.buf = [] → s.chanClosed = true →
      WorkerStep s { s with exited := true }
  | ctxDone (s : WorkerState) :
      s.exited = false → s.ctxCancelled = true →
      WorkerStep s { s with exited := true }

/- Concrete fixtures used by the witnesses and counterexamples. -/

/-- A concrete task sitting in the buffer. -/
def wTask : CrawlTask :=
  { ID := "t1", URL := "http://a.com", CreatedAt := 0, Status := CrawlStatus.queued }

/-- A concrete persisted record for id "t1". -/
def wRec : CrawlResult :=
  { id := "t1", url := "http://a.com", title := none, status := CrawlStatus.queued,
    errorMessage := none, createdAt := 0, updatedAt := 0 }

/-- A pool with capacity 1, one buffered task, "t1" persisted and in flight. -/
def wFull : QueueService :=
  { queue := [wTask], workers := 2, bufferSize := 1, maxRetries := 3,
    retryDelay := 5, running := true, ctxCancelled := false, queueClosed := false,
    activeTasks := [("t1", wTask)], storage := [("t1", wRec)] }

/-- An idle pool with free capacity and "t1" persisted. -/
def wIdle : QueueService :=
  { queue := [], workers := 2, bufferSize := 1, maxRetries := 3,
    retryDelay := 5, running := false, ctxCancelled := false, queueClosed := false,
    activeTasks := [], storage := [("t1", wRec)] }

/-- Shutdown state seen by a worker: one task still buffered, channel
closed, context cancelled. -/
def wShut : WorkerState :=
  { buf := [wTask], chanClosed := true, ctxCancelled := true,
    processed := [], exited := false }

/-- Post-shutdown state after the worker takes the ctx.Done() branch. -/
def wShutExit : WorkerState :=
  { buf := [wTask], chanClosed := true, ctxCancelled := true,
    processed := [], exited := true }

/-- Drained state: channel closed, nothing cancelled, buffer empty. -/
def wDrained : WorkerState :=
  { buf := [], chanClosed := true, ctxCancelled := false,
    processed := [wTask], exited := false }

/-- The drained worker after it observes channel closure and exits. -/
def wDrainedExit : WorkerState := { wDrained with exited := true }

/- Helper lemmas about the association-list operations. -/

theorem alookup_aupdate_self {α : Type} (m : List (String × α)) (k : String)
    (f : α → α) : alookup (aupdate m k f) k = (alookup m k).map f := by
  induction m with
  | nil => rfl
  | cons p rest ih =>
    by_cases h : p.1 = k
    · simp [aupdate, alookup, h]
    · simpa [aupdate, alookup, h] using ih

theorem alookup_aupdate_ne {α : Type} (m : List (String × α)) (k k2 : String)
    (f : α → α) (hne : k2 ≠ k) : alookup (aupdate m k f) k2 = alookup m k2 := by
  induction m with
  | nil => rfl
  | cons p rest ih =>
    have hkk : ¬ k = k2 := fun hc => hne hc.symm
    by_cases h : p.1 = k
    · have h2 : ¬ p.1 = k2 := fun hc => hne (hc.symm.trans h)
      simpa [aupdate, alookup, h, h2, hkk] using ih
    · by_cases h3 : p.1 = k2
      · simp [aupdate, alookup, h, h3, hne, hkk, ih]
      · simpa [aupdate, alookup, h, h3] using ih

theorem alookup_aremove_self {α : Type} (m : List (String × α)) (k : String) :
    alookup (aremove m k) k = none := by
  induction m with
  | nil => rfl
  | cons p rest ih =>
    by_cases h : p.1 = k
    · simpa [aremove, alookup, h] using ih
    · have hb : (p.1 == k) = false := beq_eq_false_iff_ne.mpr h
      simpa [aremove, alookup, h, hb] using ih

theorem alookup_aremove_ne {α : Type} (m : List (String × α)) (k k2 : String)
    (hne : k2 ≠ k) : alookup (aremove m k) k2 = alookup m k2 := by
  induction m with
  | nil => rfl
  | cons p rest ih =>
    by_cases h : p.1 = k
    · have hb : (p.1 == k) = true := beq_iff_eq.mpr h
      have h2 : ¬ p.1 = k2 := fun hc => hne (hc.symm.trans h)
      simpa [aremove, alookup, hb, h2] using ih
    · have hb : (p.1 == k) = false := beq_eq_false_iff_ne.mpr h
      by_cases h3 : p.1 = k2
      · simp [aremove, alookup, hb, h3, hne, ih]
      · simpa [aremove, alookup, hb, h3] using ih

theorem alookup_tasksInsert_self (m : List (String × CrawlTask)) (t : CrawlTask) :
    alookup (tasksInsert m t) t.ID = some t := by
  unfold tasksInsert
  cases h : alookup m t.ID with
  | none => simp [h, alookup]
  | some old => simp [h, alookup_aupdate_self]

theorem alookup_save_self (s : Storage) (r : CrawlResult) :
    alookup (SaveCrawlResult s r) r.id =
      some ((alookup s r.id).elim r (fun old => upsertRow old r)) := by
  unfold SaveCrawlResult
  cases h : alookup s r.id with
  | none => simp [h, alookup]
  | some old => simp [h, alookup_aupdate_self]

theorem alookup_updateStatus_self (s : Storage) (id : String) (st : CrawlStatus)
    (e : Option String) (now : Nat) :
    alookup (UpdateCrawlStatus s id st e now) id =
      (alookup s id).map (fun old =>
        { old with status := st, errorMessage := e, updatedAt := now }) :=
  alookup_aupdate_self s id _

/- Claim theorems. -/

/-- Claim C2: for every target rejected by the validation contract,
EnqueueURL returns an error and performs no state mutation — no record is
persisted, the in-flight set is unchanged, nothing is sent to the buffer
(the whole service state is returned untouched). -/
theorem enqueue_invalid_no_mutation (q : QueueService) (url newId : String)
    (now : Nat) (sf uf : Bool) (msg : String)
    (hv : ValidateURL url = some msg) :
    q.EnqueueURL url newId now sf uf = (q, Except.error (QueueError.invalidURL msg)) := by
  simp [QueueService.EnqueueURL, hv]

/-- Witness for C2 at the empty target. -/
theorem enqueue_invalid_no_mutation_w :
    ValidateURL "" = some "URL cannot be empty" ∧
    wIdle.EnqueueURL "" "x" 0 false false =
      (wIdle, Except.error (QueueError.invalidURL "URL cannot be empty")) :=
  ⟨by decide, enqueue_invalid_no_mutation wIdle "" "x" 0 false false
    "URL cannot be empty" (by decide)⟩

/-- Claim C7: for every id absent from persisted storage, RequeueTask
returns the distinguishable not-found error and mutates nothing: no
in-flight entry, no status update, nothing sent to the buffer. -/
theorem requeue_not_found (q : QueueService) (id : String) (now : Nat)
    (uf uff : Bool) (h : alookup q.storage id = none) :
    q.RequeueTask id now uf uff =
      (q, some (QueueError.getFailed StorageError.notFound)) := by
  simp [QueueService.RequeueTask, GetCrawlResult, h]

/-- Witness for C7 at an absent id. -/
theorem requeue_not_found_w :
    alookup wIdle.storage "zz" = none ∧
    wIdle.RequeueTask "zz" 1 false false =
      (wIdle, some (QueueError.getFailed StorageError.notFound)) :=
  ⟨by decide, requeue_not_found wIdle "zz" 1 false false (by decide)⟩

/-- Claim C8: Start on an already-running pool changes nothing and spawns
no additional workers; Stop on a non-running pool changes nothing — in
particular it neither cancels the context nor closes the admission channel
a second time (all flags are returned untouched). -/
theorem start_stop_idempotent (p r : QueueService)
    (hp : p.running = true) (hr : r.running = false) :
    p.Start = (p, 0) ∧ r.Stop = r := by
  constructor
  · simp [QueueService.Start, hp]
  · simp [QueueService.Stop, hr]

/-- Witness for C8 on a running and a stopped pool. -/
theorem start_stop_idempotent_w :
    wFull.running = true ∧ wIdle.running = false ∧
    (wFull.Start = (wFull, 0) ∧ wIdle.Stop = wIdle) :=
  ⟨rfl, rfl, start_stop_idempotent wFull wIdle rfl rfl⟩

/-- Claim C4, counterexample: the code rejects disallowed patterns occurring
anywhere in the target (strings.Contains on the lowered URL), not only as a
scheme prefix. The target below starts with the required scheme and has no
disallowed prefix, so the claim accepts it, yet ValidateURL rejects it
because a disallowed pattern occurs in the query string. -/
theorem validateURL_prefix_only_refuted :
    (ValidateURL "http://a.com/x?q=data:text").isSome = true ∧
    specRejects "http://a.com/x?q=data:text" = false := by
  constructor
  · decide
  · decide

/-- Claim C4, amended: ValidateURL errors exactly for the empty string, a
target lacking the required scheme, or a target containing a disallowed
pattern case-insensitively as a substring ANYWHERE (not only as a prefix);
every other target is accepted. -/
theorem validateURL_amended_classes (t : String) :
    (ValidateURL t).isSome = amendedRejects t := by
  unfold ValidateURL amendedRejects
  by_cases h1 : t = ""
  · simp [h1]
  · have hb : (t == "") = false := beq_eq_false_iff_ne.mpr h1
    rw [if_neg h1, hb]
    simp only [Bool.false_or]
    cases hp : (strStartsWith "http://" t || strStartsWith "https://" t) with
    | false => simp [hp]
    | true =>
      simp only [hp, Bool.not_true, Bool.true_or]
      cases ha : maliciousPatterns.any (fun pattern => strContainsStr (strToLower t) pattern) with
      | false => simp [ha]
      | true => simp [ha]

/-- Claim C3: for every valid target with free buffer capacity, EnqueueURL
succeeds and an immediately following GetActiveTask on the returned id
yields found = true with the task status queued. -/
theorem enqueue_then_get_active (q : QueueService) (url newId : String) (now : Nat)
    (hv : ValidateURL url = none) (hcap : q.queue.length < q.bufferSize) :
    ∃ r : CrawlResult, ∃ t : CrawlTask,
      (q.EnqueueURL url newId now false false).2 = Except.ok r ∧
      (q.EnqueueURL url newId now false false).1.GetActiveTask r.id = (some t, true) ∧
      t.Status = CrawlStatus.queued := by
  refine ⟨{ id := newId, url := url, title := none, status := CrawlStatus.queued,
            errorMessage := none, createdAt := now, updatedAt := now },
          { ID := newId, URL := url, CreatedAt := now, Status := CrawlStatus.queued },
          ?_, ?_, rfl⟩
  · simp [QueueService.EnqueueURL, hv, hcap]
  · have hl := alookup_tasksInsert_self q.activeTasks
      { ID := newId, URL := url, CreatedAt := now, Status := CrawlStatus.queued }
    simp only at hl
    simp [QueueService.EnqueueURL, hv, hcap, QueueService.GetActiveTask, hl]

/-- Witness for C3 on an idle pool with capacity. -/
theorem enqueue_then_get_active_w :
    ValidateURL "https://b.org" = none ∧
    wIdle.queue.length < wIdle.bufferSize ∧
    (∃ r : CrawlResult, ∃ t : CrawlTask,
      (wIdle.EnqueueURL "https://b.org" "t9" 5 false false).2 = Except.ok r ∧
      (wIdle.EnqueueURL "https://b.org" "t9" 5 false false).1.GetActiveTask r.id =
        (some t, true) ∧
      t.Status = CrawlStatus.queued) :=
  ⟨by decide, by decide,
   enqueue_then_get_active wIdle "https://b.org" "t9" 5 (by decide) (by decide)⟩

/-- Claim C1: when the non-blocking send finds the buffer full, EnqueueURL
leaves the task absent from the in-flight set (GetActiveTask finds nothing),
the persisted record's status is overwritten to error with the queue-full
message (the code's literal string is "Queue is full") via UpdateCrawlStatus,
and the caller receives an error. Stated with both storage calls succeeding;
C10 covers the discarded failure of the status update. -/
theorem enqueue_queue_full (q : QueueService) (url newId : String) (now : Nat)
    (hv : ValidateURL url = none) (hfull : ¬ q.queue.length < q.bufferSize) :
    (q.EnqueueURL url newId now false false).2 = Except.error QueueError.queueFull ∧
    (q.EnqueueURL url newId now false false).1.GetActiveTask newId = (none, false) ∧
    (alookup (q.EnqueueURL url newId now false false).1.storage newId).map
      (fun r => (r.status, r.errorMessage)) =
      some (CrawlStatus.error, some "Queue is full") := by
  refine ⟨?_, ?_, ?_⟩
  · simp [QueueService.EnqueueURL, hv, hfull]
  · simp [QueueService.EnqueueURL, hv, hfull, QueueService.GetActiveTask,
      alookup_aremove_self]
  · have hs := alookup_save_self q.storage
      { id := newId, url := url, title := none, status := CrawlStatus.queued,
        errorMessage := none, createdAt := now, updatedAt := now }
    simp only at hs
    simp [QueueService.EnqueueURL, hv, hfull, alookup_updateStatus_self, hs]

/-- Witness for C1 on a full pool. -/
theorem enqueue_queue_full_w :
    ValidateURL "http://a.com" = none ∧
    ¬ wFull.queue.length < wFull.bufferSize ∧
    ((wFull.EnqueueURL "http://a.com" "t2" 3 false false).2 =
        Except.error QueueError.queueFull ∧
      (wFull.EnqueueURL "http://a.com" "t2" 3 false false).1.GetActiveTask "t2" =
        (none, false) ∧
      (alookup (wFull.EnqueueURL "http://a.com" "t2" 3 false false).1.storage "t2").map
        (fun r => (r.status, r.errorMessage)) =
        some (CrawlStatus.error, some "Queue is full")) :=
  ⟨by decide, by decide,
   enqueue_queue_full wFull "http://a.com" "t2" 3 (by decide) (by decide)⟩

/-- Claim C5: on engine failure the persisted record ends with status error
and the stored error text equal to the engine's error message; and no
automatic retry is attempted — the outcome is invariant in the configured
maxRetries and retryDelay, and processTask consumes exactly the one engine
outcome it is given. Stated with the error-status update succeeding and the
record present in storage (EnqueueURL saved it at admission). -/
theorem process_engine_error (q : QueueService) (task : CrawlTask) (e : String)
    (o : TaskOracle) (now : Nat) (r0 : CrawlResult)
    (ho : o.updateErrFails = false)
    (hr : alookup q.storage task.ID = some r0) :
    ((alookup (q.processTask task (Except.error e) o now).storage task.ID).map
      (fun x => (x.status, x.errorMessage)) =
      some (CrawlStatus.error, some e)) ∧
    (∀ a b : Nat,
      QueueService.processTask { q with maxRetries := a, retryDelay := b } task
        (Except.error e) o now =
      { q.processTask task (Except.error e) o now with maxRetries := a, retryDelay := b }) := by
  constructor
  · cases hur : o.updateRunningFails <;>
      simp [QueueService.processTask, processTaskStorage, ho, hur,
        alookup_updateStatus_self, hr]
  · intro a b
    rfl

/-- Witness for C5 with the spec's "boom" engine failure. -/
theorem process_engine_error_w :
    alookup wFull.storage wTask.ID = some wRec ∧
    (alookup (wFull.processTask wTask (Except.error "boom")
        { updateRunningFails := false, saveFails := false, updateErrFails := false }
        7).storage wTask.ID).map (fun x => (x.status, x.errorMessage)) =
      some (CrawlStatus.error, some "boom") :=
  ⟨by decide,
   (process_engine_error wFull wTask "boom"
     { updateRunningFails := false, saveFails := false, updateErrFails := false }
     7 wRec rfl (by decide)).1⟩

/-- Claim C6, counterexample: the fixed fallback message the code stores
when the final save fails is "Failed to save crawl result" (capital F), not
the claim's literal "failed to save crawl result". -/
theorem process_save_fail_message_case :
    (alookup (QueueService.processTask wFull wTask (Except.ok wRec)
        { updateRunningFails := false, saveFails := true, updateErrFails := false }
        7).storage "t1").map CrawlResult.errorMessage =
      some (some "Failed to save crawl result") ∧
    "Failed to save crawl result" ≠ "failed to save crawl result" := by
  constructor
  · decide
  · decide

/-- Claim C6, amended: on engine success the result is persisted under the
task's id with status forced to completed, the updated timestamp refreshed
and the engine content stored; if that save fails the status is instead set
to error with the fixed message "Failed to save crawl result"; and in every
branch the task is removed from the in-flight set as the final step, with
every other in-flight entry untouched. -/
theorem process_engine_success (q : QueueService) (task : CrawlTask)
    (r : CrawlResult) (o : TaskOracle) (now : Nat) (r0 : CrawlResult)
    (ho : o.updateErrFails = false)
    (hr : alookup q.storage task.ID = some r0)
    (hid : r0.id = task.ID) :
    (o.saveFails = false →
      (alookup (q.processTask task (Except.ok r) o now).storage task.ID).map
        (fun x => (x.id, x.status, x.title, x.errorMessage, x.updatedAt)) =
        some (task.ID, CrawlStatus.completed, r.title, r.errorMessage, now)) ∧
    (o.saveFails = true →
      (alookup (q.processTask task (Except.ok r) o now).storage task.ID).map
        (fun x => (x.status, x.errorMessage)) =
        some (CrawlStatus.error, some "Failed to save crawl result")) ∧
    alookup (q.processTask task (Except.ok r) o now).activeTasks task.ID = none ∧
    (∀ k, k ≠ task.ID →
      alookup (q.processTask task (Except.ok r) o now).activeTasks k =
        alookup q.activeTasks k) := by
  refine ⟨?_, ?_, ?_, ?_⟩
  · intro hsf
    cases hur : o.updateRunningFails
    · have hs := alookup_save_self
        (UpdateCrawlStatus q.storage task.ID CrawlStatus.running none now)
        { r with id := task.ID, status := CrawlStatus.completed, updatedAt := now }
      simp only at hs
      simp [QueueService.processTask, processTaskStorage, ho, hur, hsf,
        alookup_updateStatus_self, hs, upsertRow, hr, hid]
    · have hs := alookup_save_self q.storage
        { r with id := task.ID, status := CrawlStatus.completed, updatedAt := now }
      simp only at hs
      simp [QueueService.processTask, processTaskStorage, ho, hur, hsf, hs,
        upsertRow, hr, hid]
  · intro hsf
    cases hur : o.updateRunningFails <;>
      simp [QueueService.processTask, processTaskStorage, ho, hur, hsf,
        alookup_updateStatus_self, hr]
  · simp [QueueService.processTask, alookup_aremove_self]
  · intro k hk
    simp [QueueService.processTask, alookup_aremove_ne _ _ _ hk,
      alookup_aupdate_ne _ _ _ _ hk]

/-- Witness for C6 on the success path. -/
theorem process_engine_success_w :
    alookup wFull.storage wTask.ID = some wRec ∧ wRec.id = wTask.ID ∧
    (alookup (wFull.processTask wTask (Except.ok wRec)
        { updateRunningFails := false, saveFails := false, updateErrFails := false }
        7).storage wTask.ID).map
      (fun x => (x.id, x.status, x.title, x.errorMessage, x.updatedAt)) =
      some (wTask.ID, CrawlStatus.completed, wRec.title, wRec.errorMessage, 7) ∧
    alookup (wFull.processTask wTask (Except.ok wRec)
        { updateRunningFails := false, saveFails := false, updateErrFails := false }
        7).activeTasks wTask.ID = none :=
  ⟨by decide, by decide,
   (process_engine_success wFull wTask wRec
     { updateRunningFails := false, saveFails := false, updateErrFails := false }
     7 wRec rfl (by decide) (by decide)).1 rfl,
   (process_engine_success wFull wTask wRec
     { updateRunningFails := false, saveFails := false, updateErrFails := false }
     7 wRec rfl (by decide) (by decide)).2.2.1⟩

/-- Claim C9, counterexample: Stop cancels the context and then closes the
channel, and Go's select chooses nondeterministically among ready cases, so
a worker may take the ctx.Done() branch and exit while a task is still
buffered: that task is dropped without being processed, contradicting the
claim that no buffered task is silently dropped. -/
theorem worker_shutdown_drop :
    WorkerStep wShut wShutExit ∧ wShutExit.exited = true ∧
    wShutExit.buf = [wTask] ∧ wShutExit.processed = [] := by
  refine ⟨?_, rfl, rfl, rfl⟩
  exact WorkerStep.ctxDone wShut rfl rfl

/-- Claim C9, amended: a worker observes channel closure only after the
buffer is drained — any exit taken while the cancellation signal is not set
can only be the receive-closed branch, which requires an empty buffer; but
a worker may exit via the cancellation branch with tasks still buffered, so
a buffered task can be dropped on shutdown. -/
theorem worker_closure_only_after_drain (s s2 : WorkerState)
    (hstep : WorkerStep s s2) (hex : s2.exited = true)
    (hc : s.ctxCancelled = false) : s.buf = [] := by
  cases hstep with
  | recvTask t rest h1 h2 => simp [h1] at hex
  | recvClosed h1 h2 h3 => exact h2
  | ctxDone h1 h2 => rw [h2] at hc; exact absurd hc (by simp)

/-- Witness for the amended C9 on a drained worker. -/
theorem worker_closure_only_after_drain_w :
    WorkerStep wDrained wDrainedExit ∧ wDrainedExit.exited = true ∧
    wDrained.ctxCancelled = false ∧ wDrained.buf = [] :=
  ⟨WorkerStep.recvClosed wDrained rfl rfl rfl, rfl, rfl,
   worker_closure_only_after_drain wDrained wDrainedExit
     (WorkerStep.recvClosed wDrained rfl rfl rfl) rfl rfl⟩

/-- Claim C10: on the full-buffer rejection path of EnqueueURL and
RequeueTask, a failure of the UpdateCrawlStatus call that should mark the
record error is silently discarded — the caller still receives only the
queue-full error and the persisted record keeps its prior status queued. -/
theorem queue_full_update_failure_discarded (q : QueueService)
    (url newId id : String) (now : Nat) (r0 : CrawlResult)
    (hv : ValidateURL url = none) (hfull : ¬ q.queue.length < q.bufferSize)
    (hr : alookup q.storage id = some r0) :
    ((q.EnqueueURL url newId now false true).2 = Except.error QueueError.queueFull ∧
      (alookup (q.EnqueueURL url newId now false true).1.storage newId).map
        CrawlResult.status = some CrawlStatus.queued) ∧
    ((q.RequeueTask id now false true).2 = some QueueError.queueFull ∧
      (alookup (q.RequeueTask id now false true).1.storage id).map
        CrawlResult.status = some CrawlStatus.queued) := by
  refine ⟨⟨?_, ?_⟩, ?_, ?_⟩
  · simp [QueueService.EnqueueURL, hv, hfull]
  · have hs := alookup_save_self q.storage
      { id := newId, url := url, title := none, status := CrawlStatus.queued,
        errorMessage := none, createdAt := now, updatedAt := now }
    simp only at hs
    simp [QueueService.EnqueueURL, hv, hfull, hs]
    cases halt : alookup q.storage newId <;> simp [halt, upsertRow] at hs ⊢
  · simp [QueueService.RequeueTask, GetCrawlResult, hr, hfull]
  · simp [QueueService.RequeueTask, GetCrawlResult, hr, hfull,
      alookup_updateStatus_self]

/-- Witness for C10 on a full pool with the status update failing. -/
theorem queue_full_update_failure_discarded_w :
    ValidateURL "http://a.com" = none ∧
    ¬ wFull.queue.length < wFull.bufferSize ∧
    alookup wFull.storage "t1" = some wRec ∧
    (((wFull.EnqueueURL "http://a.com" "t5" 9 false true).2 =
        Except.error QueueError.queueFull ∧
      (alookup (wFull.EnqueueURL "http://a.com" "t5" 9 false true).1.storage "t5").map
        CrawlResult.status = some CrawlStatus.queued) ∧
     ((wFull.RequeueTask "t1" 9 false true).2 = some QueueError.queueFull ∧
      (alookup (wFull.RequeueTask "t1" 9 false true).1.storage "t1").map
        CrawlResult.status = some CrawlStatus.queued)) :=
  ⟨by decide, by decide, by decide,
   queue_full_update_failure_discarded wFull "http://a.com" "t5" "t1" 9 wRec
     (by decide) (by decide) (by decide)⟩
